import Mathlib

/-!
Verification of the Ed-Tech ETL pipeline core against its specification.

The Python sources are shallowly embedded: dynamically-typed values become
the inductive `Value`, dictionaries become association lists, pandas frames
become explicit row lists, Python floats are modelled as exact rationals,
and code that can raise models the exception channel with `Except String`.
Each embedded definition keeps the name of the Python function it models
(from `src/etl/transformations/data_transformer.py` and
`src/lambda/search_handler.py`).
-/

namespace EdTech

deriving instance DecidableEq for Except

/-- A dynamically-typed value, as manipulated by the Python code:
strings, numbers (floats modelled as exact rationals), lists, and `None`.
List values carry strings, the shape the pipeline produces for the
list-valued fields (`skill_gaps`, `required_skills`, ...). -/
inductive Value where
  | vStr (s : String)
  | vNum (q : ℚ)
  | vList (xs : List String)
  | vNone
deriving DecidableEq

open Value

/-- Python truthiness for `Value` (`if skill`, `if not student_id`, ...). -/
def truthy : Value → Bool
  | .vStr s => s != ""
  | .vNum q => q != 0
  | .vList xs => !xs.isEmpty
  | .vNone => false

/-- A Python dict with string keys, as an association list. -/
abbrev PyDict := List (String × Value)

/-- Python `str.lower()` at ASCII granularity (character-wise). -/
def pyToLower (s : String) : String := ⟨s.data.map Char.toLower⟩

/-- Python `' '.join(xs)` for a list of strings. -/
def joinSpace : List String → String
  | [] => ""
  | [x] => x
  | x :: rest => x ++ " " ++ joinSpace rest

/-- Python `s.split(c)` for a one-character separator. -/
def splitCharAux (sep : Char) : List Char → List Char → List (List Char)
  | cur, [] => [cur.reverse]
  | cur, c :: rest =>
    if c = sep then cur.reverse :: splitCharAux sep [] rest
    else splitCharAux sep (c :: cur) rest

/-- String form of the one-character split. -/
def pySplitOn (sep : Char) (s : String) : List String :=
  (splitCharAux sep [] s.data).map (fun l => ⟨l⟩)

/-- Python `s.replace(c, '')` for a one-character pattern: delete every
occurrence. -/
def removeChar (c : Char) (s : String) : String :=
  ⟨s.data.filter (fun d => !(d == c))⟩

/-! ## Text cleaning (`DataTransformer.clean_text_data`)

`clean_text_data` strips the string, collapses whitespace runs to single
spaces (`re.sub`), and deletes characters outside `[\w\s@.-]`.
Characters are modelled at ASCII granularity (Python's `\w`, `\s` and
`str.strip` are Unicode-aware; every behaviour proved or refuted below is
exercised on ASCII data). -/

/-- Membership in Python's `\s` class, restricted to ASCII. -/
def isPySpace (c : Char) : Bool :=
  c == ' ' || c == '\t' || c == '\n' || c == '\r' || c == '\x0b' || c == '\x0c'

/-- Membership in Python's `\w` class (`[A-Za-z0-9_]` at ASCII granularity). -/
def isWordChar (c : Char) : Bool := c.isAlphanum || c == '_'

/-- The character class `[\w\s@.-]` kept by the final `re.sub` of
`clean_text_data`. -/
def allowedChar (c : Char) : Bool :=
  isWordChar c || isPySpace c || c == '@' || c == '.' || c == '-'

/-- Python `str.strip()`: drop leading and trailing whitespace. -/
def pyStrip (l : List Char) : List Char :=
  ((l.dropWhile isPySpace).reverse.dropWhile isPySpace).reverse

/-- `re.sub(r'\s+', ' ', s)`: replace each maximal whitespace run by one
space. -/
def collapseWS : List Char → List Char
  | [] => []
  | [c] => if isPySpace c then [' '] else [c]
  | c :: d :: rest =>
    if isPySpace c && isPySpace d then collapseWS (d :: rest)
    else (if isPySpace c then ' ' else c) :: collapseWS (d :: rest)

/-- Character-level body of `clean_text_data`. -/
def cleanChars (l : List Char) : List Char :=
  (collapseWS (pyStrip l)).filter allowedChar

/-- `DataTransformer.clean_text_data`, on string inputs (on `None`/NaN the
Python function short-circuits to `""` before this pipeline runs). -/
def clean_text_data (s : String) : String := ⟨cleanChars s.data⟩

/-! ## Student-id validation (`DataTransformer.validate_student_id`)

The rule table pins `student_id` to the regex `^STU\d{3}$` checked with
`re.match`.  Python's `$` anchor also matches just before a single trailing
newline, so the compiled predicate accepts an optional final `'\n'`.
Digits are modelled as ASCII digits. -/

/-- The compiled form of `bool(re.match(r'^STU\d{3}$', s))` under Python
regex semantics (`$` accepts one trailing newline). -/
def validCharsId (l : List Char) : Bool :=
  match l with
  | c1 :: c2 :: c3 :: d1 :: d2 :: d3 :: rest =>
    c1 == 'S' && c2 == 'T' && c3 == 'U' &&
    d1.isDigit && d2.isDigit && d3.isDigit &&
    (rest.isEmpty || rest == ['\n'])
  | _ => false

/-- `DataTransformer.validate_student_id` on string inputs. -/
def validate_student_id (s : String) : Bool := validCharsId s.data

/-- Modelled from the spec: validity is exactly the fixed-format predicate
"three letters STU followed by exactly 3 digits" (nothing before, nothing
after).  Used as the comparison point for claim C9. -/
def specCharsId (l : List Char) : Bool :=
  match l with
  | [c1, c2, c3, d1, d2, d3] =>
    c1 == 'S' && c2 == 'T' && c3 == 'U' &&
    d1.isDigit && d2.isDigit && d3.isDigit
  | _ => false

/-- Modelled from the spec: string form of `specCharsId`. -/
def spec_student_id_valid (s : String) : Bool := specCharsId s.data

/-! ## GPA cleaning (`DataTransformer.clean_gpa`) -/

/-- Round-half-to-even on rationals, the semantics of Python's `round`
applied to an exactly-represented value. -/
def roundHalfEven (m : ℚ) : ℤ :=
  let f := ⌊m⌋
  let r := m - f
  if r < 1/2 then f
  else if 1/2 < r then f + 1
  else if f % 2 = 0 then f else f + 1

/-- Python `round(x, 2)` on exact rationals. -/
def pyRound2 (q : ℚ) : ℚ := (roundHalfEven (q * 100) : ℚ) / 100

/-- Python `round(x, 3)` on exact rationals. -/
def pyRound3 (q : ℚ) : ℚ := (roundHalfEven (q * 1000) : ℚ) / 1000

/-- Value of a digit string, most significant first. -/
def natOfDigits (l : List Char) : ℕ :=
  l.foldl (fun a c => 10 * a + (c.toNat - 48)) 0

/-- Unsigned decimal literal: digits with an optional fractional part
(`"12"`, `"12."`, `".5"`, `"1.25"`). -/
def parseUnsigned? (cs : List Char) : Option ℚ :=
  let intPart := cs.takeWhile (·.isDigit)
  let rest := cs.dropWhile (·.isDigit)
  match rest with
  | [] => if intPart.isEmpty then none else some (natOfDigits intPart)
  | '.' :: frac =>
    if frac.all (·.isDigit) && !(intPart.isEmpty && frac.isEmpty) then
      some ((natOfDigits intPart : ℚ) + (natOfDigits frac : ℚ) / (10 : ℚ) ^ frac.length)
    else none
  | _ => none

/-- Python `float(s)` on the decimal-literal fragment: surrounding
whitespace, optional sign, digits with optional fractional part.
(Exponents, `inf` and `nan` are outside the modelled fragment; for `nan`
and `inf` the caller's range check rejects the value just as a parse
failure does.) -/
def parseFloat? (s : String) : Option ℚ :=
  let cs := pyStrip s.data
  match cs with
  | '+' :: rest => parseUnsigned? rest
  | '-' :: rest => (parseUnsigned? rest).map Neg.neg
  | _ => parseUnsigned? cs

/-- Inputs reaching `clean_gpa`: missing (`None`/NaN), a number, or a
string to coerce with `float`. -/
inductive GpaInput where
  | gnone
  | gnum (q : ℚ)
  | gstr (s : String)
deriving DecidableEq

/-- `DataTransformer.clean_gpa`: missing marker for `None`/NaN, `float`
coercion (failure gives the missing marker), range gate `[0.0, 4.0]`,
`round(_, 2)` on success. -/
def clean_gpa : GpaInput → Option ℚ
  | .gnone => none
  | .gnum q => if 0 ≤ q ∧ q ≤ 4 then some (pyRound2 q) else none
  | .gstr s =>
    match parseFloat? s with
    | none => none
    | some q => if 0 ≤ q ∧ q ≤ 4 then some (pyRound2 q) else none

/-! ## Skills-list cleaning (`DataTransformer._clean_skills_list`) -/

/-- Inputs reaching `_clean_skills_list`: missing, a native list (of
strings, the shape the feeds produce), a delimited string, or any other
type (mapped to `[]`). -/
inductive SkillsInput where
  | snone
  | slist (xs : List String)
  | sstr (s : String)
  | sother
deriving DecidableEq

/-- `re.split(r'[,;|]', s)`: segments between delimiter characters
(empty segments included). -/
def splitDelimsAux : List Char → List Char → List (List Char)
  | cur, [] => [cur.reverse]
  | cur, c :: rest =>
    if c = ',' ∨ c = ';' ∨ c = '|' then cur.reverse :: splitDelimsAux [] rest
    else splitDelimsAux (c :: cur) rest

/-- String form of the delimiter split. -/
def splitDelims (s : String) : List String :=
  (splitDelimsAux [] s.data).map (fun l => ⟨l⟩)

/-- `DataTransformer._clean_skills_list`: native lists keep truthy
elements, delimited strings keep segments whose `strip()` is truthy;
kept elements then pass through `clean_text_data`. -/
def _clean_skills_list : SkillsInput → List String
  | .snone => []
  | .slist xs => (xs.filter (fun sk => sk != "")).map clean_text_data
  | .sstr s =>
    ((splitDelims s).filter (fun seg => !(pyStrip seg.data).isEmpty)).map clean_text_data
  | .sother => []

/-- A string containing at least one kept non-whitespace character (a
character that survives the final `re.sub` of `clean_text_data` and is not
whitespace).  Such an element cleans to a non-empty string. -/
def hasCore (s : String) : Bool :=
  s.data.any (fun c => allowedChar c && !isPySpace c)

/-! ## Quality scoring (`DataTransformer._calculate_data_quality_score`)

A pandas frame is modelled as its column names, per-column
`dtype == 'object'` flags, and a row-major cell grid (`none` = null). -/

structure PyDataFrame where
  colNames : List String
  colIsObject : List Bool
  rows : List (List (Option Value))
deriving DecidableEq

/-- pandas `df.empty`: an axis of length zero. -/
def dfEmpty (df : PyDataFrame) : Bool := df.rows.isEmpty || df.colNames.isEmpty

/-- `df.isnull().sum().sum()`. -/
def nullCells (df : PyDataFrame) : ℕ :=
  (df.rows.map (fun r => r.countP (fun c => c.isNone))).sum

/-- Rows equal to an earlier row, as `df.duplicated().sum()`
(`keep='first'`). -/
def dupCountAux : List (List (Option Value)) → List (List (Option Value)) → ℕ
  | _, [] => 0
  | seen, r :: rest => (if r ∈ seen then 1 else 0) + dupCountAux (r :: seen) rest

/-- `df.duplicated().sum()`. -/
def dupCount (rows : List (List (Option Value))) : ℕ := dupCountAux [] rows

/-- Cells of column `j`. -/
def colCells (df : PyDataFrame) (j : ℕ) : List (Option Value) :=
  df.rows.map (fun r => r.getD j none)

/-- Penalty contribution of one column: `0.05` for an object column whose
distinct-to-nonnull ratio exceeds `0.8` (with the `unique_values > 0`
guard). -/
def colPenalty (df : PyDataFrame) (j : ℕ) : ℚ :=
  if df.colIsObject.getD j false then
    let nonnull := (colCells df j).reduceOption
    let u := nonnull.dedup.length
    if 0 < u ∧ (4/5 : ℚ) < (u : ℚ) / (nonnull.length : ℚ) then 1/20 else 0
  else 0

/-- `DataTransformer._calculate_data_quality_score`. -/
def _calculate_data_quality_score (df : PyDataFrame) : ℚ :=
  if dfEmpty df then 0
  else
    let total : ℚ := ((df.rows.length * df.colNames.length : ℕ) : ℚ)
    let completeness := (total - (nullCells df : ℚ)) / total
    let penalty := ((dupCount df.rows : ℚ) / (df.rows.length : ℚ)) * (1/10)
      + ((List.range df.colNames.length).map (colPenalty df)).sum
    pyRound3 (max 0 (completeness - penalty))

/-! ## Job matching (`DataTransformer._calculate_job_match_score`)

The student and job dicts enter through `.get` with defaults; the fields
the function reads are modelled as a typed record. -/

structure MatchStudent where
  academic_program : String
  gpa : Option ℚ
  skill_gaps : List String
deriving DecidableEq

structure MatchJob where
  required_skills : List String
deriving DecidableEq

/-- Python `needle in hay` on strings (substring containment). -/
def containsSub (needle hay : String) : Bool :=
  hay.data.tails.any (fun t => needle.data.isPrefixOf t)

/-- `[skill.lower() for skill in job.get('required_skills', [])]`. -/
def jobSkillsLower (j : MatchJob) : List String := j.required_skills.map pyToLower

/-- The keyword-association bonus (`+0.3`, first matching branch only). -/
def programBonus (s : MatchStudent) (j : MatchJob) : ℚ :=
  let prog := pyToLower s.academic_program
  let js := jobSkillsLower j
  if containsSub "computer science" prog && js.any (fun sk => containsSub "programming" sk) then 3/10
  else if containsSub "data science" prog && js.any (fun sk => containsSub "data" sk) then 3/10
  else if containsSub "business" prog && js.any (fun sk => containsSub "management" sk) then 3/10
  else 0

/-- The GPA bonus (`+0.2` when the value is truthy and at least 3.5). -/
def gpaBonus (s : MatchStudent) : ℚ :=
  match s.gpa with
  | some g => if g ≠ 0 ∧ 7/2 ≤ g then 1/5 else 0
  | none => 0

/-- `len(set(student_skills) & set(job_skills))` — note the job skills are
lower-cased first, the student's `skill_gaps` are not. -/
def skillOverlap (s : MatchStudent) (j : MatchJob) : ℕ :=
  (s.skill_gaps.toFinset ∩ (jobSkillsLower j).toFinset).card

/-- The skills-overlap bonus: `min(0.5, overlap * 0.1)` when positive. -/
def skillBonus (o : ℕ) : ℚ := if 0 < o then min (1/2) ((o : ℚ) * (1/10)) else 0

/-- `DataTransformer._calculate_job_match_score`. -/
def _calculate_job_match_score (s : MatchStudent) (j : MatchJob) : ℚ :=
  min 1 (programBonus s j + gpaBonus s + skillBonus (skillOverlap s j))

/-- Modelled from the spec: the overlap the spec's sentence speaks about,
`|skill_gaps ∩ required_skills|` with no case folding.  Comparison point
for claim C6. -/
def specSkillOverlap (s : MatchStudent) (j : MatchJob) : ℕ :=
  (s.skill_gaps.toFinset ∩ j.required_skills.toFinset).card

/-! ## Search engine (`src/lambda/search_handler.py`)

The search index is its `records` list (dicts); exceptions raised while
serving a query are the `Except` error channel. -/

abbrev SRecord := PyDict

/-- `d.get(k, default)` (named form, to keep `List` dot-notation out). -/
def getd (d : PyDict) (k : String) (dflt : Value) : Value :=
  match List.find? (fun kv => kv.1 = k) d with
  | some kv => kv.2
  | none => dflt

/-- `v.lower()`: raises `AttributeError` on non-strings. -/
def pyLower (v : Value) : Except String String :=
  match v with
  | .vStr s => .ok (pyToLower s)
  | _ => .error "AttributeError: object has no attribute lower"

/-- `' '.join(v)`: joins a list of strings, iterates a string by
characters, raises `TypeError` otherwise. -/
def pyJoin (v : Value) : Except String String :=
  match v with
  | .vList xs => .ok (joinSpace xs)
  | .vStr s => .ok (joinSpace (s.data.map (fun c => String.singleton c)))
  | _ => .error "TypeError: can only join an iterable"

/-- One pass of the scoring loop body: `if query in field.lower()`. -/
def scoreField (v : Value) (qLower : String) : Except String ℕ :=
  match pyLower v with
  | .error e => .error e
  | .ok lw => .ok (if containsSub qLower lw then 1 else 0)

/-- The request's `filters` dict (the four keys the handlers read). -/
structure Filters where
  academic_program : Option String
  min_gpa : Option ℚ
  location : Option String
  min_salary : Option ℤ
deriving DecidableEq

/-- `record.get('gpa', 0) < min_gpa`: numeric comparison, `TypeError` on
non-numeric values. -/
def pyLtNum (v : Value) (g : ℚ) : Except String Bool :=
  match v with
  | .vNum q => .ok (q < g)
  | _ => .error "TypeError: unsupported comparison"

/-- The `min_gpa` gate of `calculate_relevance_score`. -/
def studentFilterGpa (r : SRecord) (f : Filters) (score : ℕ) : Except String ℕ :=
  match f.min_gpa with
  | some g =>
    match pyLtNum (getd r "gpa" (vNum 0)) g with
    | .error e => .error e
    | .ok b => .ok (if b then 0 else score)
  | none => .ok score

/-- The `academic_program` gate (early `return 0.0` skips later gates). -/
def studentFilters (r : SRecord) (f : Filters) (score : ℕ) : Except String ℕ :=
  match f.academic_program with
  | some p =>
    match pyLower (getd r "academic_program" (vStr "")) with
    | .error e => .error e
    | .ok rl => if rl ≠ pyToLower p then .ok 0 else studentFilterGpa r f score
  | none => studentFilterGpa r f score

/-- `EdTechSearchEngine.calculate_relevance_score`: the joined list fields
are built first (as in the Python list literal), then each of the four
text fields is lowered and tested, then the filters gate the score. -/
def calculate_relevance_score (r : SRecord) (qLower : String) (f : Filters) :
    Except String ℕ :=
  match pyJoin (getd r "skill_gaps" (vList [])) with
  | .error e => .error e
  | .ok f3 =>
  match pyJoin (getd r "recommended_courses" (vList [])) with
  | .error e => .error e
  | .ok f4 =>
  match scoreField (getd r "academic_program" (vStr "")) qLower with
  | .error e => .error e
  | .ok s1 =>
  match scoreField (getd r "career_interest" (vStr "")) qLower with
  | .error e => .error e
  | .ok s2 =>
    let s3 : ℕ := if containsSub qLower (pyToLower f3) then 1 else 0
    let s4 : ℕ := if containsSub qLower (pyToLower f4) then 1 else 0
    studentFilters r f (s1 + s2 + s3 + s4)

/-- A result row of `search_students` (projected fields plus score). -/
structure StudentResult where
  student_id : Value
  academic_program : Value
  gpa : Value
  performance_score : Value
  career_interest : Value
  skills : Value
  relevance_score : ℕ
deriving DecidableEq

/-- The result dict built for one matching student record. -/
def mkStudentResult (r : SRecord) (score : ℕ) : StudentResult :=
  ⟨getd r "student_id" vNone, getd r "academic_program" vNone, getd r "gpa" vNone,
   getd r "performance_score" vNone, getd r "career_interest" vNone,
   getd r "skill_gaps" (vList []), score⟩

/-- The accumulation loop of `search_students`: score each record in index
order, keep those with positive score. -/
def scoreStudents (qLower : String) (f : Filters) :
    List SRecord → Except String (List StudentResult)
  | [] => .ok []
  | r :: rest =>
    match calculate_relevance_score r qLower f with
    | .error e => .error e
    | .ok sc =>
      match scoreStudents qLower f rest with
      | .error e => .error e
      | .ok tail => .ok (if 0 < sc then mkStudentResult r sc :: tail else tail)

/-- Stable descending insertion: an element moves left past strictly
smaller keys only, so earlier elements keep priority on ties — the
ordering produced by Python's stable `list.sort(key=..., reverse=True)`. -/
def insertByDesc {α : Type} (key : α → ℕ) (x : α) : List α → List α
  | [] => [x]
  | y :: ys => if key y ≤ key x then x :: y :: ys else y :: insertByDesc key x ys

/-- Stable descending sort by a numeric key (the semantics of
`results.sort(key=lambda x: x['relevance_score'], reverse=True)`). -/
def sortByDesc {α : Type} (key : α → ℕ) (l : List α) : List α :=
  l.foldr (insertByDesc key) []

/-- `EdTechSearchEngine.search_students`. -/
def search_students (records : List SRecord) (query : String) (f : Filters) :
    Except String (List StudentResult) :=
  if records.isEmpty then .ok []
  else
    match scoreStudents (pyToLower query) f records with
    | .error e => .error e
    | .ok cands => .ok ((sortByDesc StudentResult.relevance_score cands).take 50)

/-- Python `int(s)` on the decimal fragment: surrounding whitespace,
optional sign, digits. -/
def parseInt? (s : String) : Option ℤ :=
  let cs := pyStrip s.data
  match cs with
  | '+' :: rest => if !rest.isEmpty && rest.all (·.isDigit) then some (natOfDigits rest : ℤ) else none
  | '-' :: rest => if !rest.isEmpty && rest.all (·.isDigit) then some (-(natOfDigits rest : ℤ)) else none
  | _ => if !cs.isEmpty && cs.all (·.isDigit) then some (natOfDigits cs : ℤ) else none

/-- The `min_salary` gate: lower bound of a `"NNk-MMk"` range; the inner
`try` turns parse failures into a pass. -/
def jobFilterSalary (r : SRecord) (f : Filters) (score : ℕ) : Except String ℕ :=
  match f.min_salary with
  | some ms =>
    match getd r "salary_range" (vStr "") with
    | .vStr sal =>
      if containsSub "k" (pyToLower sal) then
        match parseInt? (removeChar 'k' ((pySplitOn '-' sal).headD "")) with
        | some n => .ok (if n * 1000 < ms then 0 else score)
        | none => .ok score
      else .ok score
    | _ => .error "AttributeError: object has no attribute lower"
  | none => .ok score

/-- The `location` gate (case-insensitive substring; early `return 0.0`). -/
def jobFilters (r : SRecord) (f : Filters) (score : ℕ) : Except String ℕ :=
  match f.location with
  | some loc =>
    match pyLower (getd r "location" (vStr "")) with
    | .error e => .error e
    | .ok rl => if !containsSub (pyToLower loc) rl then .ok 0 else jobFilterSalary r f score
  | none => jobFilterSalary r f score

/-- `EdTechSearchEngine.calculate_job_relevance_score`. -/
def calculate_job_relevance_score (r : SRecord) (qLower : String) (f : Filters) :
    Except String ℕ :=
  match pyJoin (getd r "required_skills" (vList [])) with
  | .error e => .error e
  | .ok f4 =>
  match scoreField (getd r "job_title" (vStr "")) qLower with
  | .error e => .error e
  | .ok s1 =>
  match scoreField (getd r "company" (vStr "")) qLower with
  | .error e => .error e
  | .ok s2 =>
  match scoreField (getd r "location" (vStr "")) qLower with
  | .error e => .error e
  | .ok s3 =>
    let s4 : ℕ := if containsSub qLower (pyToLower f4) then 1 else 0
    jobFilters r f (s1 + s2 + s3 + s4)

/-- A result row of `search_jobs`. -/
structure JobResult where
  job_posting_id : Value
  job_title : Value
  company : Value
  location : Value
  required_skills : Value
  salary_range : Value
  match_score : Value
  relevance_score : ℕ
deriving DecidableEq

/-- The result dict built for one matching job record. -/
def mkJobResult (r : SRecord) (score : ℕ) : JobResult :=
  ⟨getd r "job_posting_id" vNone, getd r "job_title" vNone, getd r "company" vNone,
   getd r "location" vNone, getd r "required_skills" (vList []),
   getd r "salary_range" vNone, getd r "match_score" (vNum 0), score⟩

/-- The accumulation loop of `search_jobs` (records without a truthy
`job_title` are skipped before scoring). -/
def scoreJobs (qLower : String) (f : Filters) :
    List SRecord → Except String (List JobResult)
  | [] => .ok []
  | r :: rest =>
    if !truthy (getd r "job_title" vNone) then scoreJobs qLower f rest
    else
      match calculate_job_relevance_score r qLower f with
      | .error e => .error e
      | .ok sc =>
        match scoreJobs qLower f rest with
        | .error e => .error e
        | .ok tail => .ok (if 0 < sc then mkJobResult r sc :: tail else tail)

/-- `EdTechSearchEngine.search_jobs`. -/
def search_jobs (records : List SRecord) (query : String) (f : Filters) :
    Except String (List JobResult) :=
  if records.isEmpty then .ok []
  else
    match scoreJobs (pyToLower query) f records with
    | .error e => .error e
    | .ok cands => .ok ((sortByDesc JobResult.relevance_score cands).take 50)

/-! ## Recommendations and the Lambda entry point -/

/-- `for x in v`: iterates lists and strings, `TypeError` otherwise. -/
def pyIterStrs (v : Value) : Except String (List String) :=
  match v with
  | .vList xs => .ok xs
  | .vStr s => .ok (s.data.map (fun c => String.singleton c))
  | _ => .error "TypeError: object is not iterable"

/-- A job entry of `get_recommendations`. -/
structure RecJob where
  job_title : Value
  company : Value
  location : Value
  required_skills : Value
  salary_range : Value
  match_score : Value
deriving DecidableEq

/-- A course entry of `get_recommendations`. -/
structure RecCourse where
  course_id : String
  course_name : String
  reason : String
deriving DecidableEq

/-- The job dict built for one matching record. -/
def mkRecJob (r : SRecord) : RecJob :=
  ⟨getd r "job_title" vNone, getd r "company" vNone, getd r "location" vNone,
   getd r "required_skills" (vList []), getd r "salary_range" vNone,
   getd r "match_score" (vNum 0)⟩

/-- The course dict built for one recommended course. -/
def mkRecCourse (c : String) : RecCourse :=
  ⟨c, "Course " ++ c, "Based on your skill gaps and career interests"⟩

/-- `EdTechSearchEngine.get_recommendations`. -/
def get_recommendations (records : List SRecord) (sid : String) :
    Except String (List RecJob × List RecCourse) :=
  if records.isEmpty then .ok ([], [])
  else
    match records.find? (fun r => getd r "student_id" vNone == vStr sid) with
    | none => .ok ([], [])
    | some sr =>
      let jobs := records.filterMap (fun r =>
        if (getd r "student_id" vNone == vStr sid) && truthy (getd r "job_title" vNone)
        then some (mkRecJob r) else none)
      match pyIterStrs (getd sr "recommended_courses" (vList [])) with
      | .error e => .error e
      | .ok courses => .ok (jobs.take 10, (courses.map mkRecCourse).take 5)

/-- The payload placed under `results` in the response body. -/
inductive ResultsPayload where
  | students (xs : List StudentResult)
  | jobs (xs : List JobResult)
  | recs (jobs : List RecJob) (courses : List RecCourse)
deriving DecidableEq

/-- The response body (timestamp and constant headers omitted: they are
external formatting, not decision logic). -/
inductive RespBody where
  | ok (action query : String) (results : ResultsPayload) (total_results : ℕ)
  | badRequest (err : String)
  | internalError (err msg : String)
deriving DecidableEq

/-- An HTTP-style response of the Lambda handler. -/
structure LambdaResponse where
  statusCode : ℕ
  body : RespBody
deriving DecidableEq

/-- A request event: `event.get('action', 'search_students')` et al. -/
structure LambdaEvent where
  action : Option String
  query : String
  filters : Filters
  student_id : Option String
deriving DecidableEq

/-- `lambda_handler` of `src/lambda/search_handler.py`: dispatch on the
action (defaulting to `search_students`), 400 on contract violations, 500
with the stringified exception when serving raises. -/
def lambda_handler (records : List SRecord) (event : LambdaEvent) : LambdaResponse :=
  let action := event.action.getD "search_students"
  if action = "search_students" then
    match search_students records event.query event.filters with
    | .ok res => ⟨200, .ok action event.query (.students res) res.length⟩
    | .error e => ⟨500, .internalError "Internal server error" e⟩
  else if action = "search_jobs" then
    match search_jobs records event.query event.filters with
    | .ok res => ⟨200, .ok action event.query (.jobs res) res.length⟩
    | .error e => ⟨500, .internalError "Internal server error" e⟩
  else if action = "get_recommendations" then
    if event.student_id.getD "" = "" then
      ⟨400, .badRequest "student_id is required for recommendations"⟩
    else
      match get_recommendations records (event.student_id.getD "") with
      | .ok (jobs, courses) => ⟨200, .ok action event.query (.recs jobs courses) 0⟩
      | .error e => ⟨500, .internalError "Internal server error" e⟩
  else ⟨400, .badRequest ("Invalid action: " ++ action)⟩

/-! ## Profile unification (`DataTransformer._create_unified_student_profiles`)

The function appends one profile dict per Oracle student row, then one per
Workday student row; Tableau analytics rows then enrich the first profile
whose `student_id` matches (`break` after the first hit). -/

/-- A profile dict as built by `_create_unified_student_profiles` (the
enrichment keys exist only after an analytics update, hence `Option`). -/
structure Profile where
  student_id : Value
  first_name : Value
  last_name : Value
  email : Value
  academic_program : Value
  gpa : Value
  enrollment_date : Value
  graduation_date : Value
  status : Value
  data_source : String
  performance_score : Option Value
  engagement_level : Option Value
  learning_style : Option Value
  career_interest : Option Value
  skill_gaps : Option Value
  recommended_courses : Option Value
deriving DecidableEq

/-- The profile dict built from one Oracle `students` row. -/
def mkOracleProfile (row : PyDict) : Profile :=
  ⟨getd row "student_id" vNone, getd row "first_name" vNone, getd row "last_name" vNone,
   getd row "email" vNone, getd row "academic_program" vNone, getd row "gpa" vNone,
   getd row "enrollment_date" vNone, getd row "graduation_date" vNone,
   getd row "status" vNone, "oracle", none, none, none, none, none, none⟩

/-- The profile dict built from one Workday `students` row
(`graduation_date` comes from `expected_graduation`). -/
def mkWorkdayProfile (row : PyDict) : Profile :=
  ⟨getd row "student_id" vNone, getd row "first_name" vNone, getd row "last_name" vNone,
   getd row "email" vNone, getd row "academic_program" vNone, getd row "gpa" vNone,
   getd row "enrollment_date" vNone, getd row "expected_graduation" vNone,
   getd row "status" vNone, "workday", none, none, none, none, none, none⟩

/-- `profile.update({...})` with the six analytics fields. -/
def applyEnrich (row : PyDict) (p : Profile) : Profile :=
  { p with
    performance_score := some (getd row "performance_score" vNone),
    engagement_level := some (getd row "engagement_level" vNone),
    learning_style := some (getd row "learning_style" vNone),
    career_interest := some (getd row "career_interest" vNone),
    skill_gaps := some (getd row "skill_gaps" (vList [])),
    recommended_courses := some (getd row "recommended_courses" (vList [])) }

/-- Enrich the first profile whose `student_id` equals `sid`, then stop
(the `break` in the source). -/
def updateFirst (sid : Value) (row : PyDict) : List Profile → List Profile
  | [] => []
  | p :: ps => if p.student_id = sid then applyEnrich row p :: ps else p :: updateFirst sid row ps

/-- The slices of `transformed_data` the unifier reads (`none` models a
missing source or dataset key). -/
structure TransformedData where
  oracle_students : Option (List PyDict)
  workday_students : Option (List PyDict)
  tableau_analytics : Option (List PyDict)
deriving DecidableEq

/-- `DataTransformer._create_unified_student_profiles`. -/
def _create_unified_student_profiles (d : TransformedData) : List Profile :=
  let base := (d.oracle_students.getD []).map mkOracleProfile
    ++ (d.workday_students.getD []).map mkWorkdayProfile
  (d.tableau_analytics.getD []).foldl
    (fun acc row => updateFirst (getd row "student_id" vNone) row acc) base

/-! ### Concrete sample inputs used when settling individual claims -/

/-- A clean, duplicate-free frame whose single object column is fully
distinct — the uniqueness penalty fires. -/
def df0 : PyDataFrame := ⟨["name"], [true], [[some (vStr "a")], [some (vStr "b")]]⟩

/-- A clean, duplicate-free frame with a non-object column — no penalty. -/
def dfOk : PyDataFrame := ⟨["col"], [false], [[some (vStr "a")], [some (vStr "b")]]⟩

/-- A student whose skill gap matches a required skill only after the
case folding the matcher applies to job skills. -/
def s6a : MatchStudent := ⟨"", none, ["java"]⟩

/-- A student whose skill gap matches a required skill letter-for-letter
but not after the matcher's case folding. -/
def s6b : MatchStudent := ⟨"", none, ["Java"]⟩

/-- A job requiring the mixed-case skill `"Java"`. -/
def j6 : MatchJob := ⟨["Java"]⟩

/-! ### Lemmas about the text cleaner -/

theorem collapseWS_eq_of_nonspace (d : Char) (rest : List Char) (hd : isPySpace d = false) :
    collapseWS (d :: rest) = d :: collapseWS rest := by
  cases rest with
  | nil => simp [collapseWS, hd]
  | cons e r => simp [collapseWS, hd]

theorem collapseWS_ne_nil : ∀ (l : List Char), l ≠ [] → collapseWS l ≠ [] := by
  intro l
  induction l with
  | nil => intro h; exact absurd rfl h
  | cons a tail ih =>
    intro _
    cases tail with
    | nil => by_cases ha : isPySpace a = true <;> simp [collapseWS, ha]
    | cons d rest =>
      by_cases h2 : (isPySpace a && isPySpace d) = true
      · simpa [collapseWS, h2] using ih (by simp)
      · simp [collapseWS, h2]

theorem mem_collapseWS : ∀ {l : List Char} {c : Char}, c ∈ collapseWS l → c ∈ l ∨ c = ' ' := by
  intro l
  induction l with
  | nil => intro c h; simp [collapseWS] at h
  | cons a tail ih =>
    intro c h
    cases tail with
    | nil =>
      by_cases ha : isPySpace a = true
      · simp [collapseWS, ha] at h
        exact Or.inr h
      · simp [collapseWS, ha] at h
        exact Or.inl (by simp [h])
    | cons d rest =>
      by_cases h2 : (isPySpace a && isPySpace d) = true
      · simp only [collapseWS, h2, if_true] at h
        rcases ih h with hm | hs
        · exact Or.inl (List.mem_cons_of_mem a hm)
        · exact Or.inr hs
      · simp only [collapseWS, h2, if_false, Bool.false_eq_true, List.mem_cons] at h
        rcases h with hh | ht
        · by_cases ha : isPySpace a = true
          · simp [ha] at hh
            exact Or.inr hh
          · simp [ha] at hh
            exact Or.inl (by simp [hh])
        · rcases ih ht with hm | hs
          · exact Or.inl (List.mem_cons_of_mem a hm)
          · exact Or.inr hs

theorem collapseWS_space_eq :
    ∀ (l : List Char), ∀ c ∈ collapseWS l, isPySpace c = true → c = ' ' := by
  intro l
  induction l with
  | nil => intro c h; simp [collapseWS] at h
  | cons a tail ih =>
    intro c h hsp
    cases tail with
    | nil =>
      by_cases ha : isPySpace a = true
      · simpa [collapseWS, ha] using h
      · simp [collapseWS, ha] at h
        rw [h] at hsp
        exact absurd hsp (by simp [ha])
    | cons d rest =>
      by_cases h2 : (isPySpace a && isPySpace d) = true
      · simp only [collapseWS, h2, if_true] at h
        exact ih c h hsp
      · simp only [collapseWS, h2, if_false, Bool.false_eq_true, List.mem_cons] at h
        rcases h with hh | ht
        · by_cases ha : isPySpace a = true
          · simpa [ha] using hh
          · simp [ha] at hh
            rw [hh] at hsp
            exact absurd hsp (by simp [ha])
        · exact ih c ht hsp

theorem collapseWS_chain :
    ∀ (l : List Char),
      (collapseWS l).Chain' (fun a b => ¬(isPySpace a = true ∧ isPySpace b = true)) := by
  intro l
  induction l with
  | nil => simp [collapseWS]
  | cons a tail ih =>
    cases tail with
    | nil => by_cases ha : isPySpace a = true <;> simp [collapseWS, ha]
    | cons d rest =>
      by_cases h2 : (isPySpace a && isPySpace d) = true
      · simpa only [collapseWS, h2, if_true] using ih
      · simp only [collapseWS, h2, if_false, Bool.false_eq_true]
        rw [List.chain'_cons']
        refine ⟨?_, ih⟩
        intro y hy
        by_cases ha : isPySpace a = true
        · have hd : isPySpace d = false := by
            by_cases hd : isPySpace d = true
            · exact absurd (by simp [ha, hd]) h2
            · simp at hd
              exact hd
          rw [collapseWS_eq_of_nonspace d rest hd] at hy
          simp at hy
          subst hy
          simp [hd]
        · simp [ha]

theorem collapseWS_eq_self :
    ∀ (l : List Char), (∀ c ∈ l, isPySpace c = true → c = ' ') →
      l.Chain' (fun a b => ¬(isPySpace a = true ∧ isPySpace b = true)) →
      collapseWS l = l := by
  intro l
  induction l with
  | nil => intro _ _; rfl
  | cons a tail ih =>
    intro hsp hch
    cases tail with
    | nil =>
      by_cases ha : isPySpace a = true
      · have hsp' : a = ' ' := hsp a (by simp) ha
        simp [collapseWS, ha, hsp']
      · simp [collapseWS, ha]
    | cons d rest =>
      rw [List.chain'_cons] at hch
      have h2 : (isPySpace a && isPySpace d) = false := by
        by_cases ha : isPySpace a = true
        · by_cases hd : isPySpace d = true
          · exact absurd ⟨ha, hd⟩ hch.1
          · have hd' : isPySpace d = false := by simpa using hd
            simp [hd']
        · have ha' : isPySpace a = false := by simpa using ha
          simp [ha']
      simp only [collapseWS, h2, if_false, Bool.false_eq_true]
      have htl : collapseWS (d :: rest) = d :: rest :=
        ih (fun c hc => hsp c (List.mem_cons_of_mem a hc)) hch.2
      rw [htl]
      by_cases ha : isPySpace a = true
      · rw [if_pos ha, hsp a (by simp) ha]
      · rw [if_neg (by simp [ha])]

theorem dropWhile_head_not (p : Char → Bool) :
    ∀ (l : List Char) (c : Char), (l.dropWhile p).head? = some c → p c = false := by
  intro l
  induction l with
  | nil => intro c h; simp [List.dropWhile] at h
  | cons a t ih =>
    intro c h
    rw [List.dropWhile_cons] at h
    by_cases ha : p a = true
    · rw [if_pos ha] at h
      exact ih c h
    · rw [if_neg ha] at h
      simp at h
      rw [← h]
      simpa using ha

theorem dropWhile_eq_self (p : Char → Bool) (l : List Char)
    (h : ∀ c, l.head? = some c → p c = false) : l.dropWhile p = l := by
  cases l with
  | nil => rfl
  | cons a t =>
    rw [List.dropWhile_cons, if_neg (by simp [h a rfl])]

theorem mem_of_mem_dropWhile (p : Char → Bool) :
    ∀ (l : List Char) (c : Char), c ∈ l.dropWhile p → c ∈ l := by
  intro l
  induction l with
  | nil =>
    intro c h
    simp [List.dropWhile] at h
  | cons a t ih =>
    intro c h
    rw [List.dropWhile_cons] at h
    by_cases ha : p a = true
    · rw [if_pos ha] at h
      exact List.mem_cons_of_mem a (ih c h)
    · rwa [if_neg ha] at h

theorem mem_dropWhile_of_nonsat (p : Char → Bool) {c : Char} (hc : p c = false) :
    ∀ (l : List Char), c ∈ l → c ∈ l.dropWhile p := by
  intro l
  induction l with
  | nil => intro h; simp at h
  | cons a t ih =>
    intro h
    rw [List.dropWhile_cons]
    by_cases ha : p a = true
    · rw [if_pos ha]
      rcases List.mem_cons.mp h with rfl | hm
      · rw [hc] at ha; cases ha
      · exact ih hm
    · rwa [if_neg ha]

theorem pyStrip_subset (l : List Char) : pyStrip l ⊆ l := by
  intro c hc
  unfold pyStrip at hc
  rw [List.mem_reverse] at hc
  have h1 := mem_of_mem_dropWhile _ _ _ hc
  rw [List.mem_reverse] at h1
  exact mem_of_mem_dropWhile _ _ _ h1

theorem mem_pyStrip_of_nonspace {c : Char} (hc : isPySpace c = false) (l : List Char)
    (h : c ∈ l) : c ∈ pyStrip l := by
  unfold pyStrip
  rw [List.mem_reverse]
  apply mem_dropWhile_of_nonsat _ hc
  rw [List.mem_reverse]
  exact mem_dropWhile_of_nonsat _ hc _ h

theorem mem_collapseWS_of_nonspace {c : Char} (hc : isPySpace c = false) :
    ∀ (l : List Char), c ∈ l → c ∈ collapseWS l := by
  intro l
  induction l with
  | nil => intro h; simp at h
  | cons a tail ih =>
    intro h
    cases tail with
    | nil =>
      rcases List.mem_cons.mp h with rfl | hm
      · simp [collapseWS, hc]
      · simp at hm
    | cons d rest =>
      by_cases h2 : (isPySpace a && isPySpace d) = true
      · simp only [collapseWS, h2, if_true]
        rcases List.mem_cons.mp h with rfl | hm
        · exact absurd (Bool.and_elim_left h2) (by simp [hc])
        · exact ih hm
      · simp only [collapseWS, h2, if_false, Bool.false_eq_true, List.mem_cons]
        rcases List.mem_cons.mp h with rfl | hm
        · left
          rw [if_neg (by simp [hc])]
        · right
          exact ih hm

theorem pyStrip_head (l : List Char) :
    ∀ c, (pyStrip l).head? = some c → isPySpace c = false := by
  intro c hc
  unfold pyStrip at hc
  rw [List.head?_reverse] at hc
  rcases hsuf : ((l.dropWhile isPySpace).reverse.dropWhile isPySpace) with _ | ⟨b, bs⟩
  · rw [hsuf] at hc; simp at hc
  · obtain ⟨pre, hpre⟩ := List.dropWhile_suffix (l := (l.dropWhile isPySpace).reverse) (p := isPySpace)
    rw [hsuf] at hc hpre
    have hlast : (b :: bs).getLast? = (l.dropWhile isPySpace).reverse.getLast? := by
      rw [← hpre]
      exact (List.getLast?_append_cons pre b bs).symm
    rw [hlast, List.getLast?_reverse] at hc
    exact dropWhile_head_not _ _ _ hc

theorem pyStrip_last (l : List Char) :
    ∀ c, (pyStrip l).getLast? = some c → isPySpace c = false := by
  intro c hc
  unfold pyStrip at hc
  rw [List.getLast?_reverse] at hc
  exact dropWhile_head_not _ _ _ hc

theorem pyStrip_eq_self (l : List Char)
    (hh : ∀ c, l.head? = some c → isPySpace c = false)
    (hl : ∀ c, l.getLast? = some c → isPySpace c = false) : pyStrip l = l := by
  unfold pyStrip
  rw [dropWhile_eq_self _ _ hh]
  rw [dropWhile_eq_self _ _ (fun c h => hl c (by rwa [List.head?_reverse] at h))]
  exact List.reverse_reverse l

theorem collapseWS_head (l : List Char)
    (hh : ∀ c, l.head? = some c → isPySpace c = false) :
    ∀ c, (collapseWS l).head? = some c → isPySpace c = false := by
  intro c hc
  cases l with
  | nil => simp [collapseWS] at hc
  | cons a t =>
    have ha : isPySpace a = false := hh a rfl
    rw [collapseWS_eq_of_nonspace a t ha] at hc
    simp at hc
    rwa [← hc]

theorem collapseWS_last :
    ∀ (l : List Char), (∀ c, l.getLast? = some c → isPySpace c = false) →
      ∀ c, (collapseWS l).getLast? = some c → isPySpace c = false := by
  intro l
  induction l with
  | nil => intro _ c hc; simp [collapseWS] at hc
  | cons a tail ih =>
    intro hlast c hc
    cases tail with
    | nil =>
      have ha : isPySpace a = false := hlast a rfl
      simp [collapseWS, ha] at hc
      rwa [← hc]
    | cons d rest =>
      have htl : ∀ e, (d :: rest).getLast? = some e → isPySpace e = false := by
        intro e he
        exact hlast e (by rwa [List.getLast?_cons_cons])
      by_cases h2 : (isPySpace a && isPySpace d) = true
      · simp only [collapseWS, h2, if_true] at hc
        exact ih htl c hc
      · simp only [collapseWS, h2, if_false, Bool.false_eq_true] at hc
        rcases hT : collapseWS (d :: rest) with _ | ⟨e, es⟩
        · exact absurd hT (collapseWS_ne_nil (d :: rest) (by simp))
        · rw [hT, List.getLast?_cons_cons] at hc
          rw [← hT] at hc
          exact ih htl c hc

theorem allowedChar_of_space {c : Char} (h : isPySpace c = true) : allowedChar c = true := by
  simp [allowedChar, h]

theorem cleanChars_allowed (l : List Char) : ∀ c ∈ cleanChars l, allowedChar c = true :=
  fun _ hc => (List.mem_filter.mp hc).2

theorem collapseWS_pyStrip_allowed (l : List Char) (h : ∀ c ∈ l, allowedChar c = true) :
    ∀ c ∈ collapseWS (pyStrip l), allowedChar c = true := by
  intro c hc
  rcases mem_collapseWS hc with hm | hs
  · exact h c (pyStrip_subset l hm)
  · rw [hs]; rfl

theorem cleanChars_of_allowed (l : List Char) (h : ∀ c ∈ l, allowedChar c = true) :
    cleanChars l = collapseWS (pyStrip l) := by
  unfold cleanChars
  exact List.filter_eq_self.mpr (collapseWS_pyStrip_allowed l h)

theorem cleanChars_fix (l : List Char) :
    cleanChars (cleanChars (cleanChars l)) = cleanChars (cleanChars l) := by
  have hya : ∀ c ∈ cleanChars l, allowedChar c = true := cleanChars_allowed l
  have h1 : cleanChars (cleanChars l) = collapseWS (pyStrip (cleanChars l)) :=
    cleanChars_of_allowed _ hya
  have hwa : ∀ c ∈ collapseWS (pyStrip (cleanChars l)), allowedChar c = true :=
    collapseWS_pyStrip_allowed _ hya
  have hwh : ∀ c, (collapseWS (pyStrip (cleanChars l))).head? = some c → isPySpace c = false :=
    collapseWS_head _ (pyStrip_head _)
  have hwl : ∀ c, (collapseWS (pyStrip (cleanChars l))).getLast? = some c → isPySpace c = false :=
    collapseWS_last _ (pyStrip_last _)
  have h2 : pyStrip (collapseWS (pyStrip (cleanChars l))) = collapseWS (pyStrip (cleanChars l)) :=
    pyStrip_eq_self _ hwh hwl
  have h3 : collapseWS (collapseWS (pyStrip (cleanChars l))) = collapseWS (pyStrip (cleanChars l)) :=
    collapseWS_eq_self _ (collapseWS_space_eq _) (collapseWS_chain _)
  have main : ∀ w : List Char, (∀ c ∈ w, allowedChar c = true) →
      pyStrip w = w → collapseWS w = w → cleanChars w = w := by
    intro w hwa' hw2 hw3
    unfold cleanChars
    rw [hw2, hw3]
    exact List.filter_eq_self.mpr hwa'
  rw [h1]
  exact main _ hwa h2 h3

/-- Claim C3: the text cleaner is not idempotent — deleting a disallowed
character can expose fresh edge or doubled whitespace.  On `"# a"` one
application yields `" a"` (leading space), a second strips it. -/
theorem c3_counterexample :
    clean_text_data (clean_text_data "# a") ≠ clean_text_data "# a" := by decide

/-- Claim C3 (amended): `clean_text` composed with itself is idempotent —
a second application reaches a fixpoint even though a single one need not. -/
theorem c3_amended (s : String) :
    clean_text_data (clean_text_data (clean_text_data s)) = clean_text_data (clean_text_data s) :=
  congrArg String.mk (cleanChars_fix s.data)

/-! ### Claim C8: emptiness of cleaned skills -/

theorem clean_text_data_ne_empty {s : String} (h : hasCore s = true) :
    clean_text_data s ≠ "" := by
  rcases List.any_eq_true.mp h with ⟨c, hcmem, hcprop⟩
  rw [Bool.and_eq_true] at hcprop
  have hall : allowedChar c = true := hcprop.1
  have hnsp : isPySpace c = false := by simpa using hcprop.2
  have h1 : c ∈ pyStrip s.data := mem_pyStrip_of_nonspace hnsp _ hcmem
  have h2 : c ∈ collapseWS (pyStrip s.data) := mem_collapseWS_of_nonspace hnsp _ h1
  have h3 : c ∈ cleanChars s.data := List.mem_filter.mpr ⟨h2, hall⟩
  intro hcontra
  have hnil : cleanChars s.data = ([] : List Char) := congrArg String.data hcontra
  exact List.ne_nil_of_mem h3 hnil

/-- Claim C8: the cleaned skills list can contain empty elements — the
emptiness test precedes cleaning, and cleaning can delete every character
of a kept element (`"#"` cleans to `""`). -/
theorem c8_counterexample :
    _clean_skills_list (.sstr "#,java") = ["", "java"] ∧
    "" ∈ _clean_skills_list (.sstr "#,java") := by decide

/-- Claim C8 (amended): empty (list case) or blank (string case) raw
elements are dropped, and provided every kept raw element contains at
least one non-whitespace kept character, every element of the cleaned
skills list is a non-empty string. -/
theorem c8_amended : ∀ inp : SkillsInput,
    (match inp with
     | .snone => True
     | .sother => True
     | .slist xs => ∀ x ∈ xs, x ≠ "" → hasCore x = true
     | .sstr s => ∀ seg ∈ splitDelims s, pyStrip seg.data ≠ [] → hasCore seg = true) →
    ∀ e ∈ _clean_skills_list inp, e ≠ "" := by
  intro inp hyp e he
  cases inp with
  | snone => simp [_clean_skills_list] at he
  | sother => simp [_clean_skills_list] at he
  | slist xs =>
    simp only [_clean_skills_list] at he
    rcases List.mem_map.mp he with ⟨x, hxmem, rfl⟩
    rcases List.mem_filter.mp hxmem with ⟨hx, hne⟩
    exact clean_text_data_ne_empty (hyp x hx (by simpa using hne))
  | sstr s =>
    simp only [_clean_skills_list] at he
    rcases List.mem_map.mp he with ⟨seg, hsegmem, rfl⟩
    rcases List.mem_filter.mp hsegmem with ⟨hseg, hne⟩
    exact clean_text_data_ne_empty (hyp seg hseg (by simpa using hne))

/-- Claim C8 witness: the amended theorem applied to the concrete input
`"java;python"`. -/
theorem c8_witness : ("java" : String) ≠ "" :=
  c8_amended (.sstr "java;python") (by decide) "java" (by decide)

/-! ### Lemmas about the stable descending sort -/

theorem mem_insertByDesc {α : Type} (key : α → ℕ) (x z : α) :
    ∀ l, z ∈ insertByDesc key x l → z = x ∨ z ∈ l := by
  intro l
  induction l with
  | nil => intro h; simpa [insertByDesc] using h
  | cons y ys ih =>
    intro h
    simp only [insertByDesc] at h
    by_cases hk : key y ≤ key x
    · rw [if_pos hk] at h
      rcases List.mem_cons.mp h with rfl | h2
      · exact Or.inl rfl
      · exact Or.inr h2
    · rw [if_neg hk] at h
      rcases List.mem_cons.mp h with rfl | h2
      · exact Or.inr (List.mem_cons_self _ _)
      · rcases ih h2 with h3 | h3
        · exact Or.inl h3
        · exact Or.inr (List.mem_cons_of_mem _ h3)

theorem pairwise_insertByDesc {α : Type} (key : α → ℕ) (x : α) :
    ∀ l, l.Pairwise (fun a b => key b ≤ key a) →
      (insertByDesc key x l).Pairwise (fun a b => key b ≤ key a) := by
  intro l
  induction l with
  | nil => intro _; simp [insertByDesc]
  | cons y ys ih =>
    intro hp
    rw [List.pairwise_cons] at hp
    simp only [insertByDesc]
    by_cases hk : key y ≤ key x
    · rw [if_pos hk, List.pairwise_cons]
      constructor
      · intro b hb
        rcases List.mem_cons.mp hb with rfl | h2
        · exact hk
        · exact le_trans (hp.1 b h2) hk
      · rw [List.pairwise_cons]
        exact hp
    · rw [if_neg hk, List.pairwise_cons]
      constructor
      · intro b hb
        rcases mem_insertByDesc key x b ys hb with rfl | h2
        · exact le_of_lt (Nat.lt_of_not_le hk)
        · exact hp.1 b h2
      · exact ih hp.2

theorem sortByDesc_pairwise {α : Type} (key : α → ℕ) (l : List α) :
    (sortByDesc key l).Pairwise (fun a b => key b ≤ key a) := by
  induction l with
  | nil => simp [sortByDesc]
  | cons x xs ih => exact pairwise_insertByDesc key x _ ih

theorem filter_insertByDesc {α : Type} (key : α → ℕ) (x : α) (n : ℕ) :
    ∀ l, (insertByDesc key x l).filter (fun a => key a == n) =
      if key x = n then x :: l.filter (fun a => key a == n)
      else l.filter (fun a => key a == n) := by
  intro l
  induction l with
  | nil =>
    by_cases hx : key x = n <;>
      simp [insertByDesc, List.filter_cons, hx]
  | cons y ys ih =>
    simp only [insertByDesc]
    by_cases hk : key y ≤ key x
    · rw [if_pos hk]
      by_cases hx : key x = n <;> simp [List.filter_cons, hx]
    · rw [if_neg hk]
      by_cases hx : key x = n
      · by_cases hy : key y = n
        · exfalso
          apply hk
          rw [hx, hy]
        · simp [List.filter_cons, hx, hy, ih]
      · by_cases hy : key y = n <;> simp [List.filter_cons, hx, hy, ih]

theorem sortByDesc_filter {α : Type} (key : α → ℕ) (n : ℕ) :
    ∀ l, (sortByDesc key l).filter (fun a => key a == n) = l.filter (fun a => key a == n) := by
  intro l
  induction l with
  | nil => rfl
  | cons x xs ih =>
    show (insertByDesc key x (sortByDesc key xs)).filter _ = _
    rw [filter_insertByDesc]
    by_cases hx : key x = n
    · rw [if_pos hx, ih, List.filter_cons, if_pos (by simp [hx])]
    · rw [if_neg hx, ih, List.filter_cons, if_neg (by simp [hx])]

theorem filter_take_isPre {α : Type} (p : α → Bool) (l : List α) (n : ℕ) :
    (l.take n).filter p <+: l.filter p :=
  ⟨(l.drop n).filter p, by rw [← List.filter_append, List.take_append_drop]⟩

theorem search_shape {α : Type} (key : α → ℕ) (cands res : List α)
    (hres : res = (sortByDesc key cands).take 50) :
    res.length ≤ 50 ∧ res.Pairwise (fun a b => key b ≤ key a) ∧
      ∀ n, res.filter (fun a => key a == n) <+: cands.filter (fun a => key a == n) := by
  subst hres
  refine ⟨?_, ?_, ?_⟩
  · rw [List.length_take]
    exact min_le_left _ _
  · exact List.Pairwise.sublist (List.take_sublist _ _) (sortByDesc_pairwise key cands)
  · intro n
    have h1 := filter_take_isPre (fun a => key a == n) (sortByDesc key cands) 50
    rwa [sortByDesc_filter] at h1

/-- Claim C5: for every index and every `search_students` or `search_jobs`
query that completes, the result list has length at most 50, is sorted by
descending relevance score, and among equal scores keeps the index
encounter order (its per-score slices are prefixes of the unsorted
candidate list's slices). -/
theorem c5_search_limit_sorted_stable :
    (∀ (records : List SRecord) (query : String) (f : Filters)
        (cands res : List StudentResult),
      scoreStudents (pyToLower query) f records = .ok cands →
      search_students records query f = .ok res →
      res.length ≤ 50 ∧
        res.Pairwise (fun a b => b.relevance_score ≤ a.relevance_score) ∧
        ∀ n, res.filter (fun a => a.relevance_score == n) <+:
          cands.filter (fun a => a.relevance_score == n)) ∧
    (∀ (records : List SRecord) (query : String) (f : Filters)
        (cands res : List JobResult),
      scoreJobs (pyToLower query) f records = .ok cands →
      search_jobs records query f = .ok res →
      res.length ≤ 50 ∧
        res.Pairwise (fun a b => b.relevance_score ≤ a.relevance_score) ∧
        ∀ n, res.filter (fun a => a.relevance_score == n) <+:
          cands.filter (fun a => a.relevance_score == n)) := by
  constructor
  · intro records query f cands res h1 h2
    unfold search_students at h2
    by_cases hre : records.isEmpty = true
    · rw [if_pos hre] at h2
      have hres : res = [] := by
        injection h2 with h
        exact h.symm
      have hrecs : records = [] := List.isEmpty_iff.mp hre
      subst hrecs
      have hcands : cands = [] := by
        simp only [scoreStudents] at h1
        injection h1 with h
        exact h.symm
      subst hres
      subst hcands
      exact ⟨by simp, by simp, fun n => ⟨[], by simp⟩⟩
    · rw [if_neg hre, h1] at h2
      have hres : res = (sortByDesc StudentResult.relevance_score cands).take 50 := by
        injection h2 with h
        exact h.symm
      exact search_shape _ cands res hres
  · intro records query f cands res h1 h2
    unfold search_jobs at h2
    by_cases hre : records.isEmpty = true
    · rw [if_pos hre] at h2
      have hres : res = [] := by
        injection h2 with h
        exact h.symm
      have hrecs : records = [] := List.isEmpty_iff.mp hre
      subst hrecs
      have hcands : cands = [] := by
        simp only [scoreJobs] at h1
        injection h1 with h
        exact h.symm
      subst hres
      subst hcands
      exact ⟨by simp, by simp, fun n => ⟨[], by simp⟩⟩
    · rw [if_neg hre, h1] at h2
      have hres : res = (sortByDesc JobResult.relevance_score cands).take 50 := by
        injection h2 with h
        exact h.symm
      exact search_shape _ cands res hres

/-- Claim C5 witness: the theorem applied to a concrete two-record index
(both records score 1 for query `"a"`, and their index order is kept). -/
theorem c5_witness :
    ([⟨Value.vNone, Value.vStr "math", Value.vNone, Value.vNone, Value.vNone, Value.vList [], 1⟩,
      ⟨Value.vNone, Value.vStr "data", Value.vNone, Value.vNone, Value.vNone, Value.vList [], 1⟩] :
        List StudentResult).length ≤ 50 ∧
    ([⟨Value.vNone, Value.vStr "math", Value.vNone, Value.vNone, Value.vNone, Value.vList [], 1⟩,
      ⟨Value.vNone, Value.vStr "data", Value.vNone, Value.vNone, Value.vNone, Value.vList [], 1⟩] :
        List StudentResult).Pairwise (fun a b => b.relevance_score ≤ a.relevance_score) := by
  have h := c5_search_limit_sorted_stable.1
    [[("academic_program", Value.vStr "math")], [("academic_program", Value.vStr "data")]]
    "a" ⟨none, none, none, none⟩
    [⟨Value.vNone, Value.vStr "math", Value.vNone, Value.vNone, Value.vNone, Value.vList [], 1⟩,
     ⟨Value.vNone, Value.vStr "data", Value.vNone, Value.vNone, Value.vNone, Value.vList [], 1⟩]
    [⟨Value.vNone, Value.vStr "math", Value.vNone, Value.vNone, Value.vNone, Value.vList [], 1⟩,
     ⟨Value.vNone, Value.vStr "data", Value.vNone, Value.vNone, Value.vNone, Value.vList [], 1⟩]
    (by decide) (by decide)
  exact ⟨h.1, h.2.1⟩

/-- Claim C2: an internal error while serving a search action is NOT
degraded to an empty-results 200 response — the handler returns status 500
and surfaces the stringified exception in the body.  Concrete failing
request: query `"x"` against an index whose record has a numeric
`academic_program` (`.lower()` raises). -/
theorem c2_counterexample :
    lambda_handler [[("academic_program", Value.vNum 5)]]
        ⟨none, "x", ⟨none, none, none, none⟩, none⟩ =
      ⟨500, .internalError "Internal server error"
        "AttributeError: object has no attribute lower"⟩ ∧
    (lambda_handler [[("academic_program", Value.vNum 5)]]
        ⟨none, "x", ⟨none, none, none, none⟩, none⟩).statusCode ≠ 200 := by
  constructor
  · rfl
  · decide

/-- Claim C2 (amended): for every `search_students` or `search_jobs`
request whose processing raises, the caller receives a 500-equivalent
response carrying a generic error plus the exception message — never a
200 empty-results success. -/
theorem c2_amended : ∀ (records : List SRecord) (event : LambdaEvent) (e : String),
    ((event.action.getD "search_students" = "search_students" ∧
        search_students records event.query event.filters = .error e) ∨
      (event.action.getD "search_students" = "search_jobs" ∧
        search_jobs records event.query event.filters = .error e)) →
    lambda_handler records event = ⟨500, .internalError "Internal server error" e⟩ := by
  intro records event e h
  rcases h with ⟨ha, hs⟩ | ⟨ha, hs⟩
  · simp [lambda_handler, ha, hs]
  · simp [lambda_handler, ha, hs]

/-- Claim C2 witness: the amended theorem applied to the concrete failing
request of the counterexample. -/
theorem c2_witness :
    lambda_handler [[("academic_program", Value.vNum 5)]]
        ⟨some "search_students", "x", ⟨none, none, none, none⟩, none⟩ =
      ⟨500, .internalError "Internal server error"
        "AttributeError: object has no attribute lower"⟩ :=
  c2_amended _ _ _ (Or.inl ⟨rfl, by decide⟩)

/-- Claim C10: a request with no `action` key is served as
`search_students` — identical response to an explicit
`action = "search_students"`, a 200 search response when serving
completes, and never the 400 invalid-action error. -/
theorem c10_default_action : ∀ (records : List SRecord) (event : LambdaEvent),
    event.action = none →
    (lambda_handler records event =
      lambda_handler records ⟨some "search_students", event.query, event.filters, event.student_id⟩) ∧
    (∀ res, search_students records event.query event.filters = .ok res →
      lambda_handler records event =
        ⟨200, .ok "search_students" event.query (.students res) res.length⟩) ∧
    (∀ msg, lambda_handler records event ≠ ⟨400, .badRequest msg⟩) := by
  intro records event ha
  have hact : event.action.getD "search_students" = "search_students" := by
    rw [ha]
    rfl
  refine ⟨?_, ?_, ?_⟩
  · simp [lambda_handler, hact]
  · intro res hres
    simp [lambda_handler, hact, hres]
  · intro msg heq
    cases hs : search_students records event.query event.filters with
    | ok r => simp [lambda_handler, hact, hs] at heq
    | error e => simp [lambda_handler, hact, hs] at heq

/-- Claim C10 witness: the theorem applied to the empty index and an
event without an action. -/
theorem c10_witness :
    (lambda_handler ([] : List SRecord) ⟨none, "", ⟨none, none, none, none⟩, none⟩ =
      lambda_handler [] ⟨some "search_students", "", ⟨none, none, none, none⟩, none⟩) ∧
    (lambda_handler ([] : List SRecord) ⟨none, "", ⟨none, none, none, none⟩, none⟩ =
      ⟨200, .ok "search_students" "" (.students []) 0⟩) ∧
    lambda_handler ([] : List SRecord) ⟨none, "", ⟨none, none, none, none⟩, none⟩ ≠
      ⟨400, .badRequest "nope"⟩ := by
  have h := c10_default_action [] ⟨none, "", ⟨none, none, none, none⟩, none⟩ rfl
  exact ⟨h.1, h.2.1 [] rfl, h.2.2 "nope"⟩

/-! ### Claim C1: profile unification -/

theorem updateFirst_map_sid (sid : Value) (row : PyDict) :
    ∀ l : List Profile, (updateFirst sid row l).map Profile.student_id = l.map Profile.student_id := by
  intro l
  induction l with
  | nil => rfl
  | cons p ps ih =>
    simp only [updateFirst]
    by_cases hp : p.student_id = sid
    · rw [if_pos hp]
      simp [applyEnrich]
    · rw [if_neg hp]
      simp [ih]

theorem foldl_updateFirst_map_sid :
    ∀ (rows : List PyDict) (acc : List Profile),
      ((rows.foldl (fun acc row => updateFirst (getd row "student_id" vNone) row acc) acc).map
        Profile.student_id) = acc.map Profile.student_id := by
  intro rows
  induction rows with
  | nil => intro acc; rfl
  | cons r rs ih =>
    intro acc
    simp only [List.foldl_cons]
    rw [ih, updateFirst_map_sid]

/-- Claim C1: profile unification does NOT merge records sharing a
`student_id` — one Oracle row and one Workday row with `student_id`
`"STU001"` produce two profiles, not one. -/
theorem c1_counterexample :
    ((_create_unified_student_profiles
        ⟨some [[("student_id", Value.vStr "STU001")]],
         some [[("student_id", Value.vStr "STU001")]], none⟩).countP
      (fun p => p.student_id == Value.vStr "STU001")) = 2 := by decide

/-- Claim C1 (amended): the unifier emits exactly one profile per source
student record — Oracle rows then Workday rows, each keeping its row's
`student_id` — and analytics rows only enrich profiles in place, so a
`student_id` occurring in k source records yields k profiles. -/
theorem c1_amended : ∀ d : TransformedData,
    (_create_unified_student_profiles d).map Profile.student_id =
      (d.oracle_students.getD []).map (fun row => getd row "student_id" vNone) ++
        (d.workday_students.getD []).map (fun row => getd row "student_id" vNone) ∧
    (_create_unified_student_profiles d).length =
      (d.oracle_students.getD []).length + (d.workday_students.getD []).length := by
  intro d
  have hmap : (_create_unified_student_profiles d).map Profile.student_id =
      (d.oracle_students.getD []).map (fun row => getd row "student_id" vNone) ++
        (d.workday_students.getD []).map (fun row => getd row "student_id" vNone) := by
    unfold _create_unified_student_profiles
    rw [foldl_updateFirst_map_sid, List.map_append, List.map_map, List.map_map]
    rfl
  refine ⟨hmap, ?_⟩
  have h2 := congrArg List.length hmap
  simpa using h2

/-! ### Claim C4: data quality score -/

theorem pyRound3_one : pyRound3 1 = 1 := by
  unfold pyRound3 roundHalfEven
  norm_num

theorem colPenalty_eq_zero (df : PyDataFrame) (j : ℕ)
    (h : df.colIsObject.getD j false = true →
      ((colCells df j).reduceOption.dedup.length : ℚ) ≤
        4/5 * ((colCells df j).reduceOption.length : ℚ)) :
    colPenalty df j = 0 := by
  unfold colPenalty
  by_cases hob : df.colIsObject.getD j false = true
  · rw [if_pos hob, if_neg]
    rintro ⟨hu, hr⟩
    have hle := h hob
    rcases Nat.eq_zero_or_pos (colCells df j).reduceOption.length with hn | hn
    · rw [hn] at hr
      norm_num at hr
    · have hnq : (0:ℚ) < ((colCells df j).reduceOption.length : ℚ) := by exact_mod_cast hn
      rw [lt_div_iff₀ hnq] at hr
      linarith
  · rw [if_neg hob]

/-- Claim C4: a non-empty batch with zero missing cells and zero
duplicates need not score 1.0 — the free-text uniqueness penalty can
still fire (here: score 0.95). -/
theorem c4_counterexample :
    nullCells df0 = 0 ∧ dupCount df0.rows = 0 ∧ dfEmpty df0 = false ∧
    _calculate_data_quality_score df0 ≠ 1 := by
  refine ⟨by decide, by decide, by decide, ?_⟩
  have hpen : colPenalty df0 0 = 1/20 := by
    unfold colPenalty
    rw [show df0.colIsObject.getD 0 false = true from rfl, if_pos rfl]
    simp only [show (colCells df0 0).reduceOption = [Value.vStr "a", Value.vStr "b"] from by decide]
    rw [show ([Value.vStr "a", Value.vStr "b"] : List Value).dedup.length = 2 from by decide]
    rw [show ([Value.vStr "a", Value.vStr "b"] : List Value).length = 2 from rfl]
    rw [if_pos (by norm_num)]
  unfold _calculate_data_quality_score
  rw [show dfEmpty df0 = false from rfl]
  simp only [Bool.false_eq_true, if_false]
  rw [show df0.rows.length = 2 from rfl, show df0.colNames.length = 1 from rfl,
    show nullCells df0 = 0 from rfl, show dupCount df0.rows = 0 from rfl,
    show List.range 1 = [0] from rfl]
  simp only [List.map_cons, List.map_nil, List.sum_cons, List.sum_nil, hpen]
  rw [show pyRound3 (max 0 ((((2 * 1 : ℕ) : ℚ) - ((0:ℕ) : ℚ)) / ((2 * 1 : ℕ) : ℚ) -
    ((((0:ℕ) : ℚ) / ((2:ℕ) : ℚ)) * (1/10) + (1/20 + 0)))) = pyRound3 (19/20) from by
      norm_num]
  unfold pyRound3 roundHalfEven
  norm_num

/-- Claim C4 (amended): the quality score of an empty batch is exactly
0.0, and a non-empty batch with zero missing cells, zero duplicates, and
no object column whose distinct-to-nonmissing ratio exceeds 0.8 scores
exactly 1.0. -/
theorem c4_amended :
    (∀ df : PyDataFrame, dfEmpty df = true → _calculate_data_quality_score df = 0) ∧
    (∀ df : PyDataFrame, dfEmpty df = false → nullCells df = 0 → dupCount df.rows = 0 →
      (∀ j, j < df.colNames.length → df.colIsObject.getD j false = true →
        ((colCells df j).reduceOption.dedup.length : ℚ) ≤
          4/5 * ((colCells df j).reduceOption.length : ℚ)) →
      _calculate_data_quality_score df = 1) := by
  constructor
  · intro df h
    unfold _calculate_data_quality_score
    rw [if_pos h]
  · intro df hne hnull hdup hratio
    unfold _calculate_data_quality_score
    rw [hne]
    simp only [Bool.false_eq_true, if_false]
    have hrows : df.rows.length ≠ 0 := by
      intro h0
      rw [dfEmpty] at hne
      rw [List.isEmpty_iff.mpr (List.length_eq_zero.mp h0)] at hne
      simp at hne
    have hcols : df.colNames.length ≠ 0 := by
      intro h0
      rw [dfEmpty] at hne
      rw [List.isEmpty_iff.mpr (List.length_eq_zero.mp h0)] at hne
      simp at hne
    have htot : ((df.rows.length * df.colNames.length : ℕ) : ℚ) ≠ 0 := by
      exact_mod_cast Nat.mul_ne_zero hrows hcols
    have hsum : ((List.range df.colNames.length).map (colPenalty df)).sum = 0 := by
      apply List.sum_eq_zero
      intro x hx
      rcases List.mem_map.mp hx with ⟨j, hj, rfl⟩
      exact colPenalty_eq_zero df j (hratio j (List.mem_range.mp hj))
    rw [hnull, hdup, hsum]
    rw [show ((0:ℕ):ℚ) = 0 from rfl]
    rw [sub_zero, div_self htot, zero_div, zero_mul, add_zero, sub_zero]
    rw [max_eq_right (by norm_num : (0:ℚ) ≤ 1)]
    exact pyRound3_one

/-- Claim C4 witness: the amended theorem applied to the empty frame and
to a clean two-row numeric frame. -/
theorem c4_witness :
    _calculate_data_quality_score ⟨[], [], []⟩ = 0 ∧
    _calculate_data_quality_score dfOk = 1 := by
  refine ⟨c4_amended.1 ⟨[], [], []⟩ rfl, c4_amended.2 dfOk rfl rfl rfl ?_⟩
  intro j hj hob
  have hj0 : j = 0 := Nat.lt_one_iff.mp hj
  subst hj0
  exact absurd hob (by decide)

/-! ### Claim C6: job match score -/

theorem skillBonus_mono : ∀ o1 o2 : ℕ, o1 ≤ o2 → skillBonus o1 ≤ skillBonus o2 := by
  intro o1 o2 h
  unfold skillBonus
  by_cases h1 : 0 < o1
  · rw [if_pos h1, if_pos (lt_of_lt_of_le h1 h)]
    apply min_le_min le_rfl
    apply mul_le_mul_of_nonneg_right _ (by norm_num)
    exact_mod_cast h
  · rw [if_neg h1]
    by_cases h2 : 0 < o2
    · rw [if_pos h2]
      apply le_min (by norm_num)
      positivity
    · rw [if_neg h2]

/-- Claim C6: the match score is not monotone in the literal
`skill_gaps ∩ required_skills` overlap — the code lower-cases only the
job side, so `["java"]` scores above `["Java"]` against required skill
`"Java"` although its literal overlap is smaller. -/
theorem c6_counterexample :
    specSkillOverlap s6a j6 ≤ specSkillOverlap s6b j6 ∧
    s6a.academic_program = s6b.academic_program ∧ s6a.gpa = s6b.gpa ∧
    _calculate_job_match_score s6b j6 < _calculate_job_match_score s6a j6 := by
  refine ⟨by decide, rfl, rfl, ?_⟩
  have hso : skillOverlap s6a j6 = 1 := by decide
  have hso2 : skillOverlap s6b j6 = 0 := by decide
  have hpa : programBonus s6a j6 = 0 := by simp +decide [programBonus]
  have hpb : programBonus s6b j6 = 0 := by simp +decide [programBonus]
  have hga : gpaBonus s6a = 0 := rfl
  have hgb : gpaBonus s6b = 0 := rfl
  unfold _calculate_job_match_score
  rw [hso, hso2, hpa, hpb, hga, hgb]
  have hb0 : skillBonus 0 = 0 := rfl
  have hb1 : skillBonus 1 = 1/10 := by
    unfold skillBonus
    rw [if_pos (by norm_num), min_eq_right (by norm_num)]
    norm_num
  rw [hb0, hb1]
  rw [show (0:ℚ) + 0 + 0 = 0 from by norm_num, show (0:ℚ) + 0 + 1/10 = 1/10 from by norm_num]
  rw [min_eq_right (by norm_num : (0:ℚ) ≤ 1), min_eq_right (by norm_num : (1/10:ℚ) ≤ 1)]
  norm_num

/-- Claim C6 (amended): the match score is always at most 1.0, and — with
academic program and GPA held fixed — is monotone in the overlap the code
actually computes, `|skill_gaps ∩ lower-cased required_skills|`. -/
theorem c6_amended :
    (∀ (s : MatchStudent) (j : MatchJob), _calculate_job_match_score s j ≤ 1) ∧
    (∀ (s1 s2 : MatchStudent) (j : MatchJob),
      s1.academic_program = s2.academic_program → s1.gpa = s2.gpa →
      skillOverlap s1 j ≤ skillOverlap s2 j →
      _calculate_job_match_score s1 j ≤ _calculate_job_match_score s2 j) := by
  constructor
  · intro s j
    exact min_le_left _ _
  · intro s1 s2 j hp hg hov
    unfold _calculate_job_match_score
    apply min_le_min le_rfl
    have hpb : programBonus s1 j = programBonus s2 j := by
      unfold programBonus
      rw [hp]
    have hgb : gpaBonus s1 = gpaBonus s2 := by
      unfold gpaBonus
      rw [hg]
    rw [hpb, hgb]
    exact add_le_add_left (skillBonus_mono _ _ hov) _

/-- Claim C6 witness: the amended theorem applied to concrete students
and a concrete job. -/
theorem c6_witness :
    _calculate_job_match_score ⟨"x", none, []⟩ ⟨["a"]⟩ ≤ 1 ∧
    _calculate_job_match_score ⟨"x", none, []⟩ ⟨["a"]⟩ ≤
      _calculate_job_match_score ⟨"x", none, ["a"]⟩ ⟨["a"]⟩ :=
  ⟨c6_amended.1 _ _,
   c6_amended.2 ⟨"x", none, []⟩ ⟨"x", none, ["a"]⟩ ⟨["a"]⟩ rfl rfl (by decide)⟩

/-! ### Claim C7: GPA cleaning -/

/-- Claim C7: `clean_gpa` returns the missing marker on missing input, on
numeric input outside `[0.0, 4.0]`, and on non-parsing strings; on
numeric values (native or parsed from strings) inside the range it
returns the value rounded to two decimals. -/
theorem c7_clean_gpa :
    clean_gpa .gnone = none ∧
    (∀ q : ℚ, q < 0 ∨ 4 < q → clean_gpa (.gnum q) = none) ∧
    (∀ q : ℚ, 0 ≤ q → q ≤ 4 → clean_gpa (.gnum q) = some (pyRound2 q)) ∧
    (∀ s : String, parseFloat? s = none → clean_gpa (.gstr s) = none) ∧
    (∀ (s : String) (q : ℚ), parseFloat? s = some q →
      clean_gpa (.gstr s) = if 0 ≤ q ∧ q ≤ 4 then some (pyRound2 q) else none) := by
  refine ⟨rfl, ?_, ?_, ?_, ?_⟩
  · intro q hq
    simp only [clean_gpa]
    rw [if_neg]
    rintro ⟨h1, h2⟩
    rcases hq with h | h
    · linarith
    · linarith
  · intro q h1 h2
    simp only [clean_gpa]
    rw [if_pos ⟨h1, h2⟩]
  · intro s hs
    simp only [clean_gpa]
    rw [hs]
  · intro s q hs
    simp only [clean_gpa]
    rw [hs]

/-- Claim C7 witness: the theorem applied to an out-of-range number, an
in-range number, a non-numeric string, and a numeric string. -/
theorem c7_witness :
    clean_gpa (.gnum 5) = none ∧
    clean_gpa (.gnum 3) = some (pyRound2 3) ∧
    clean_gpa (.gstr "abc") = none ∧
    clean_gpa (.gstr "3.25") =
      (if (0:ℚ) ≤ 13/4 ∧ (13/4:ℚ) ≤ 4 then some (pyRound2 (13/4)) else none) := by
  refine ⟨c7_clean_gpa.2.1 5 (Or.inr (by norm_num)),
          c7_clean_gpa.2.2.1 3 (by norm_num) (by norm_num),
          c7_clean_gpa.2.2.2.1 "abc" (by decide),
          c7_clean_gpa.2.2.2.2 "3.25" (13/4) ?_⟩
  have h : pyStrip "3.25".data = ['3', '.', '2', '5'] := by decide
  simp [parseFloat?, h, parseUnsigned?, natOfDigits]
  norm_num

/-! ### Claim C9: student-id validity -/

/-- Claim C9: the compiled regex predicate is not exactly "STU followed
by three digits" — Python's `$` also matches before one trailing newline,
so `"STU001\n"` validates although it is not of the stated form. -/
theorem c9_counterexample :
    validate_student_id "STU001\n" = true ∧ spec_student_id_valid "STU001\n" = false := by
  decide

/-- Claim C9 (amended): a value is a valid student ID iff it is exactly
`STU` plus three ASCII digits, or that followed by a single trailing
newline; in particular `"STU001"` is valid while `"stu001"`, `"STU01"`
and `"STU0001"` are not. -/
theorem c9_amended : ∀ s : String,
    validate_student_id s = true ↔
      (spec_student_id_valid s = true ∨
        (s.data.getLast? = some '\n' ∧ specCharsId s.data.dropLast = true)) := by
  intro s
  obtain ⟨l⟩ := s
  show validCharsId l = true ↔
    (specCharsId l = true ∨ (l.getLast? = some '\n' ∧ specCharsId l.dropLast = true))
  rcases l with _ | ⟨c1, l⟩
  · simp [validCharsId, specCharsId]
  rcases l with _ | ⟨c2, l⟩
  · simp [validCharsId, specCharsId]
  rcases l with _ | ⟨c3, l⟩
  · simp [validCharsId, specCharsId]
  rcases l with _ | ⟨d1, l⟩
  · simp [validCharsId, specCharsId]
  rcases l with _ | ⟨d2, l⟩
  · simp [validCharsId, specCharsId]
  rcases l with _ | ⟨d3, l⟩
  · simp [validCharsId, specCharsId]
  rcases l with _ | ⟨x, l⟩
  · simp [validCharsId, specCharsId]
  rcases l with _ | ⟨y, l⟩
  · simp [validCharsId, specCharsId]
    tauto
  · simp [validCharsId, specCharsId,
      show specCharsId ((c1::c2::c3::d1::d2::d3::x::y::l).dropLast) = false from rfl]


end EdTech
